import Mathlib

/-!
# Shallow embedding of `exonum/src/events/network.rs`

This file embeds the peer-to-peer network transport core of the Exonum node
(`NetworkPart::run`, `ConnectionsPool`, `NetworkConfiguration`, the outbound
connection future and the inbound acceptor) as executable Lean definitions,
and proves the specification claims about them.

Modelling conventions:
* `SocketAddr` and `RawMessage` payloads are opaque and modelled as `Nat`.
* The `futures` 0.1 reactor is single-threaded and cooperative; the request
  dispatcher and each connection task run without intervening suspension
  inside the modelled atomic regions, so each is embedded as a pure function
  from its inputs to its effects (registry update, emitted events, spawns).
* Machine integers (`usize`, `u64`) are modelled as `Nat`: none of the
  modelled code performs arithmetic that can overflow (counts are bounded by
  configured limits, timeouts are compared, never combined).
* Fallible collaborator operations (codec decode, `Any::from_raw`, TCP
  connect) surface as sum types / `Except`, matching the error taxonomy of
  the source.
-/

namespace Network

/-- Peer network endpoint identifier (opaque; `std::net::SocketAddr`). -/
abbrev SocketAddr := Nat

/-- Opaque application message payload (`messages::RawMessage`).  The
core only needs to (a) pass it through unexamined on the relay path and
(b) resolve the first inbound frame through `Any::from_raw`, so we give it
just enough structure for the external resolver to act on:
a frame either carries the handshake (`Connect`) payload, some other
message, or bytes that fail to decode as any variant. -/
inductive RawMessage where
  | connectRaw (c : Nat)
  | otherRaw (n : Nat)
  | malformed
deriving DecidableEq, Repr

/-- Handshake payload (`messages::Connect`), opaque to the core. -/
abbrev Connect := Nat

/-- Result variants of the external message-type resolver `messages::Any`.
Only the `Connect` variant is recognised by the core. -/
inductive Any where
  | connect (c : Connect)
  | other (n : Nat)
deriving DecidableEq, Repr

/-- The resolver `Any::from_raw` (external collaborator, out of the core's
scope): the core only requires that decode failures surface as a
distinguishable error and that exactly one variant is the handshake. -/
def Any.from_raw : RawMessage → Except String Any
  | .connectRaw c => .ok (.connect c)
  | .otherRaw n => .ok (.other n)
  | .malformed => .error "decode error"

/-- The `NetworkEvent` enum (network.rs lines 39-44). -/
inductive NetworkEvent where
  | MessageReceived (addr : SocketAddr) (raw : RawMessage)
  | PeerConnected (addr : SocketAddr) (c : Connect)
  | PeerDisconnected (addr : SocketAddr)
deriving DecidableEq, Repr

/-- The `NetworkRequest` enum (network.rs lines 46-51). -/
inductive NetworkRequest where
  | SendMessage (addr : SocketAddr) (raw : RawMessage)
  | DisconnectWithPeer (addr : SocketAddr)
  | Shutdown
deriving DecidableEq, Repr

/-- The `NetworkConfiguration` struct (network.rs lines 53-62).
`Milliseconds` is a `u64` alias; all fields are modelled as
`Nat`/`Bool`/`Option Nat`. -/
structure NetworkConfiguration where
  max_incoming_connections : Nat
  max_outgoing_connections : Nat
  tcp_nodelay : Bool
  tcp_keep_alive : Option Nat
  tcp_connect_retry_timeout : Nat
  tcp_connect_max_retries : Nat
deriving DecidableEq, Repr

/-- The `impl Default for NetworkConfiguration` block (network.rs
lines 64-75). -/
def NetworkConfiguration.default : NetworkConfiguration where
  max_incoming_connections := 128
  max_outgoing_connections := 128
  tcp_keep_alive := none
  tcp_nodelay := false
  tcp_connect_retry_timeout := 15000
  tcp_connect_max_retries := 10

/-- A bounded `futures::sync::mpsc` channel endpoint as registered in the
connections pool: capacity plus currently buffered messages.  Created by
`mpsc::channel(10)` at network.rs line 172. -/
structure Chan where
  cap : Nat
  buf : List RawMessage
deriving DecidableEq, Repr

/-- Fresh bounded channel, as created by `mpsc::channel(n)`. -/
def Chan.new (n : Nat) : Chan := ⟨n, []⟩

/-- Outcome of `Sink::send` on a bounded channel: the message is either
enqueued, or the send future suspends (backpressure) with the message
still pending — it is never dropped. -/
inductive SendOutcome where
  | enqueued (c : Chan)
  | suspended (c : Chan)
deriving DecidableEq, Repr

/-- Semantics of `conn_tx.send(msg)`: enqueue when below capacity,
otherwise suspend keeping the channel unchanged (the message stays with
the suspended send future; nothing is dropped). -/
def Chan.send (c : Chan) (m : RawMessage) : SendOutcome :=
  if c.buf.length < c.cap then .enqueued ⟨c.cap, c.buf ++ [m]⟩ else .suspended c

/-- The `ConnectionsPool` struct (network.rs lines 94-119): shared map
from peer address to the outbound-send channel, modelled as an association
list.  `HashMap` key uniqueness is preserved because `insert` removes any
prior binding for the key. -/
structure ConnectionsPool where
  inner : List (SocketAddr × Chan)
deriving DecidableEq, Repr

namespace ConnectionsPool

/-- Constructor `ConnectionsPool::new` (lines 100-102). -/
def new : ConnectionsPool := ⟨[]⟩

/-- Operation `ConnectionsPool::insert` (lines 104-106): `HashMap::insert`
replaces any existing entry for the key. -/
def insert (p : ConnectionsPool) (peer : SocketAddr) (sender : Chan) :
    ConnectionsPool :=
  ⟨(peer, sender) :: p.inner.filter (fun e => e.1 ≠ peer)⟩

/-- Operation `ConnectionsPool::remove` (lines 108-110): `HashMap::remove`,
a no-op when the key is absent. -/
def remove (p : ConnectionsPool) (peer : SocketAddr) : ConnectionsPool :=
  ⟨p.inner.filter (fun e => e.1 ≠ peer)⟩

/-- Operation `ConnectionsPool::get` (lines 112-114). -/
def get (p : ConnectionsPool) (peer : SocketAddr) : Option Chan :=
  (p.inner.find? (fun e => e.1 = peer)).map (·.2)

/-- Operation `ConnectionsPool::len` (lines 116-118). -/
def len (p : ConnectionsPool) : Nat := p.inner.length

end ConnectionsPool

/-!
## Request dispatcher (`NetworkPart::run`, lines 148-250)

The dispatcher is the `for_each` over `network_requests`; each request is
processed without suspension on the single-threaded reactor, so one request
is one atomic step.  Its effects are the updated pool, the events handed to
`network_tx`, and the tasks it spawns (a connection future and/or a
`conn_tx.send` future).
-/

/-- Effects of processing one `NetworkRequest::SendMessage` (lines 153-233).
`dialSpawned` records a spawned outbound connection future (`connect_handle`,
line 227); `push` records the spawned `conn_tx.send(msg)` future
(`send_handle`, lines 231-232) together with the channel it targets. -/
structure SendMessageResult where
  pool : ConnectionsPool
  events : List NetworkEvent
  dialSpawned : Option SocketAddr
  push : Option (Chan × RawMessage)
deriving DecidableEq, Repr

/-- The `NetworkRequest::SendMessage(peer, msg)` arm of the dispatcher
(lines 153-233): reuse an existing channel, otherwise run the admission
check (`len() >= limit` rejects with `PeerDisconnected`), otherwise create
a bounded channel of capacity 10, register it, and spawn the connection
future; in the non-rejected cases the message is handed to the channel's
send future. -/
def handleSendMessage (cfg : NetworkConfiguration) (pool : ConnectionsPool)
    (peer : SocketAddr) (msg : RawMessage) : SendMessageResult :=
  match pool.get peer with
  | some conn_tx =>
      { pool := pool, events := [], dialSpawned := none,
        push := some (conn_tx, msg) }
  | none =>
      if pool.len ≥ cfg.max_outgoing_connections then
        { pool := pool, events := [.PeerDisconnected peer],
          dialSpawned := none, push := none }
      else
        let conn_tx := Chan.new 10
        { pool := pool.insert peer conn_tx,
          events := [], dialSpawned := some peer,
          push := some (conn_tx, msg) }

/-- The `NetworkRequest::DisconnectWithPeer(peer)` arm (lines 234-237):
remove the pool entry (no-op when absent) and emit `PeerDisconnected`
without waiting on any in-flight send. -/
def handleDisconnect (pool : ConnectionsPool) (peer : SocketAddr) :
    ConnectionsPool × List NetworkEvent :=
  (pool.remove peer, [.PeerDisconnected peer])

/-!
## Outbound connection future (lines 174-227)

The future is `Retry::spawn(..) |> map_err |> and_then(set_nodelay)
|> and_then(set_keepalive) |> and_then(pump) |> then(teardown)
|> map_err(log_error)` and is spawned on the reactor; its inputs
(dial outcomes, socket-option results, which pump half finishes first)
are environment-determined and quantified over in the theorems.
-/

/-- Terminal result of `reader.select2(writer)` (lines 210-216): either
half finishing first yields `Ok(())`; a socket error on either half is
mapped to an error. -/
inductive PumpEnd where
  | readerFirst
  | writerFirst
  | socketError
deriving DecidableEq, Repr

/-- Result of running the connection future up to (but excluding) the
`then` combinator: composition of the retry result, the two socket-option
configuration steps (lines 188-197, either may fail with `io::Error`), and
the pump race (lines 199-217). -/
def connectAndPump (retryResult : Except String Unit)
    (nodelayOk keepaliveOk : Bool) (pump : PumpEnd) : Except String Unit :=
  match retryResult with
  | .error e => .error e
  | .ok _ =>
      if !nodelayOk then .error "set_nodelay failed"
      else if !keepaliveOk then .error "set_keepalive failed"
      else
        match pump with
        | .readerFirst => .ok ()
        | .writerFirst => .ok ()
        | .socketError => .error "Socket error"

/-- The `then` teardown (lines 218-226) plus the final `map_err(log_error)`:
whatever `res` the connection future produced, remove the peer from the pool,
send exactly one `PeerDisconnected(peer)`, and resolve the spawned future
successfully (errors are logged and swallowed, never propagated).  The
returned `Except Empty Unit` is the spawned future's result type: it cannot
fail. -/
def outboundTeardown (pool : ConnectionsPool) (peer : SocketAddr)
    (res : Except String Unit) : ConnectionsPool × List NetworkEvent × Except Empty Unit :=
  match res with
  | .ok _ => (pool.remove peer, [.PeerDisconnected peer], .ok ())
  | .error _ => (pool.remove peer, [.PeerDisconnected peer], .ok ())

/-!
## Retry strategy (lines 174-186, 330-344)

`Retry::spawn(handle, FixedInterval::from_millis(timeout).map(jitter)
.take(max_tries), action)`: the action runs once immediately; each failure
consumes the next delay from the strategy iterator and retries after that
delay; an exhausted iterator is a terminal failure.  `jitter` multiplies a
duration by a uniformly random factor in `[0, 1]`, so a jittered delay lies
in `[0, timeout]`; the random factors are modelled by an abstract function
`jitterF : Nat → Nat → Nat` (attempt index, base interval ↦ delay) whose
bound `jitterF i t ≤ t` is a hypothesis of the theorems. -/

/-- The strategy iterator
`FixedInterval::from_millis(timeout).map(jitter).take(max_tries)`:
the finite list of jittered delays available to the retry loop. -/
def retryStrategy (jitterF : Nat → Nat → Nat) (timeout max_tries : Nat) :
    List Nat :=
  (List.range max_tries).map (fun i => jitterF i timeout)

/-- Result of the retry loop: success after recording the delays actually
waited, or terminal exhaustion with every delay consumed. -/
inductive RetryResult where
  | success (attempt : Nat) (delays : List Nat)
  | exhausted (delays : List Nat)
deriving DecidableEq, Repr

/-- The `tokio_retry` loop over `TcpStreamConnectAction` (lines 330-344):
`dial k` is the outcome of attempt number `k` (0-based); on failure the
next strategy delay is waited and the action retried. -/
def retryRun (dial : Nat → Bool) (strategy : List Nat) (k : Nat) :
    RetryResult :=
  if dial k then .success k []
  else
    match strategy with
    | [] => .exhausted []
    | d :: rest =>
        match retryRun dial rest (k + 1) with
        | .success a ds => .success a (d :: ds)
        | .exhausted ds => .exhausted (d :: ds)

/-!
## Inbound acceptor (lines 252-313)

The accepted socket is split and only its read half kept (line 276); the
connection future reads the first frame through the handshake gate
(lines 278-289), announces `PeerConnected` (lines 290-298), then relays
every further frame as `MessageReceived` (lines 300-303).  The stream of
frame-read results produced by the codec is the task's input.
-/

/-- One item produced by the framed read half: a decoded frame, or a
codec/transport error, which terminates the stream. -/
inductive StreamItem where
  | item (raw : RawMessage)
  | ioError
deriving DecidableEq, Repr

/-- Relay phase (lines 300-303): `stream.for_each` emits `MessageReceived`
per frame and stops at the first stream error (the error is logged by the
final `map_err(log_error)`; no event accompanies it). -/
def relayEvents (addr : SocketAddr) : List StreamItem → List NetworkEvent
  | [] => []
  | .ioError :: _ => []
  | .item raw :: rest => .MessageReceived addr raw :: relayEvents addr rest

/-- Complete event output of one accepted inbound connection task
(lines 278-309).  The handshake gate (lines 281-289): stream closed before
any frame (`None`), a stream error (`map_err(|e| e.0)`), a frame that fails
`Any::from_raw`, or one that decodes to a non-`Connect` variant all abort
the task with an error — no event is emitted.  Only a first frame decoding
to `Connect` emits `PeerConnected` and enters the relay. -/
def inboundEvents (addr : SocketAddr) : List StreamItem → List NetworkEvent
  | [] => []
  | .ioError :: _ => []
  | .item raw :: rest =>
      match Any.from_raw raw with
      | .ok (.connect c) => .PeerConnected addr c :: relayEvents addr rest
      | .ok (.other _) => []
      | .error _ => []

/-- Effects of the incoming-connection admission check (lines 261-273):
`Rc::downgrade` increments the live census before the test, so the census
momentarily reads `census + 1`; a count above the limit rejects the
connection, dropping the holder at the end of the closure (immediate
release); otherwise the holder moves into the spawned task. -/
structure AcceptResult where
  accepted : Bool
  peak : Nat
  final : Nat
deriving DecidableEq, Repr

/-- Admission check for one accepted socket (lines 261-273), given the
current live-inbound census (the weak count before this accept). -/
def acceptCheck (limit census : Nat) : AcceptResult :=
  let connections_count := census + 1
  if connections_count > limit then
    { accepted := false, peak := connections_count,
      final := connections_count - 1 }
  else
    { accepted := true, peak := connections_count,
      final := connections_count }

/-!
## Global transition system

The network context interleaves the dispatcher, outbound connection
futures and inbound connection tasks cooperatively on one thread.  Each
atomic region of the source (one dispatched request, one connection
teardown, one accept, one inbound task) is one labelled step.  The trace
records every `NetworkEvent` sent into `network_tx` tagged with the source
site that emitted it.  An inbound task's complete event output is appended
when the task is admitted (its per-task order is preserved; cross-task
interleaving is abstracted, which is sound for the origin and counting
properties proved below).
-/

/-- The emission sites of `NetworkEvent`s in `NetworkPart::run`. -/
inductive Origin where
  /-- Outbound admission rejection, line 164-168. -/
  | outAdmission
  /-- Outbound connection teardown (`then` combinator), lines 221-224. -/
  | outTeardown
  /-- Dispatch of `DisconnectWithPeer`, line 236. -/
  | disconnectReq
  /-- Inbound handshake announcement, lines 292-297. -/
  | inHandshake
  /-- Inbound message relay, lines 300-303. -/
  | inRelay
deriving DecidableEq, Repr

/-- An event in the global trace, tagged with its emission site. -/
abbrev TracedEvent := Origin × NetworkEvent

/-- Tag an inbound task's event list with its emission sites: the head
`PeerConnected` comes from the handshake announcement, everything after
from the relay loop. -/
def tagInbound : List NetworkEvent → List TracedEvent
  | [] => []
  | e :: rest => (Origin.inHandshake, e) :: rest.map (fun r => (Origin.inRelay, r))

/-- Global state of the network context. -/
structure NetState where
  /-- The `outgoing_connections` pool. -/
  pool : ConnectionsPool
  /-- Peers with a spawned, not yet finished outbound connection future. -/
  dials : List SocketAddr
  /-- Live inbound census: the weak count of `incoming_connections_counter`
  between atomic steps (one unit per live accepted task holder). -/
  census : Nat
  /-- All events sent into `network_tx` so far, oldest first. -/
  trace : List TracedEvent
deriving DecidableEq, Repr

/-- Startup state of `NetworkPart::run`: empty pool, no tasks, no events. -/
def initState : NetState :=
  { pool := ConnectionsPool.new, dials := [], census := 0, trace := [] }

/-- One atomic step of the network context. -/
inductive Step (cfg : NetworkConfiguration) : NetState → NetState → Prop
  /-- The dispatcher processes `SendMessage(peer, msg)` (lines 153-233). -/
  | sendMessage (s : NetState) (peer : SocketAddr) (msg : RawMessage) :
      Step cfg s
        (let r := handleSendMessage cfg s.pool peer msg
         { pool := r.pool,
           dials := match r.dialSpawned with
             | some p => p :: s.dials
             | none => s.dials,
           census := s.census,
           trace := s.trace ++ r.events.map (fun e => (Origin.outAdmission, e)) })
  /-- The dispatcher processes `DisconnectWithPeer(peer)` (lines 234-237). -/
  | disconnect (s : NetState) (peer : SocketAddr) :
      Step cfg s
        { pool := (handleDisconnect s.pool peer).1,
          dials := s.dials,
          census := s.census,
          trace := s.trace ++
            (handleDisconnect s.pool peer).2.map (fun e => (Origin.disconnectReq, e)) }
  /-- A live outbound connection future reaches its `then` teardown
  (lines 218-226) with result `res` determined by its environment. -/
  | outboundEnd (s : NetState) (peer : SocketAddr)
      (retryResult : Except String Unit) (nodelayOk keepaliveOk : Bool)
      (pump : PumpEnd) (hlive : peer ∈ s.dials) :
      Step cfg s
        (let res := connectAndPump retryResult nodelayOk keepaliveOk pump
         { pool := (outboundTeardown s.pool peer res).1,
           dials := s.dials.erase peer,
           census := s.census,
           trace := s.trace ++
             (outboundTeardown s.pool peer res).2.1.map
               (fun e => (Origin.outTeardown, e)) })
  /-- The listener accepts a socket (lines 261-311): the census check runs,
  and an admitted task (whose framed read half will yield `stream`)
  contributes its events. -/
  | accept (s : NetState) (addr : SocketAddr) (stream : List StreamItem) :
      Step cfg s
        (let r := acceptCheck cfg.max_incoming_connections s.census
         if r.accepted then
           { pool := s.pool, dials := s.dials, census := r.final,
             trace := s.trace ++ tagInbound (inboundEvents addr stream) }
         else
           { pool := s.pool, dials := s.dials, census := r.final,
             trace := s.trace })
  /-- An admitted inbound task ends (any exit path); the holder is dropped
  with the task, releasing its census unit exactly once (lines 305-308). -/
  | inboundEnd (s : NetState) (hlive : 0 < s.census) :
      Step cfg s
        { pool := s.pool, dials := s.dials, census := s.census - 1,
          trace := s.trace }

/-- States reachable from startup by any sequence of network requests,
accepts and task terminations. -/
inductive Reachable (cfg : NetworkConfiguration) : NetState → Prop
  | init : Reachable cfg initState
  | step {s s' : NetState} : Reachable cfg s → Step cfg s s' → Reachable cfg s'

/-!
## Helper lemmas about the connections pool
-/

namespace ConnectionsPool

lemma filter_ne_of_get_none {p : ConnectionsPool} {peer : SocketAddr}
    (h : p.get peer = none) :
    p.inner.filter (fun e => e.1 ≠ peer) = p.inner := by
  rw [List.filter_eq_self]
  intro e he
  have := List.find?_eq_none.mp (Option.map_eq_none.mp h) e he
  simpa using this

lemma len_insert_of_get_none {p : ConnectionsPool} {peer : SocketAddr}
    (c : Chan) (h : p.get peer = none) :
    (p.insert peer c).len = p.len + 1 := by
  have h2 := filter_ne_of_get_none h
  simp only [insert, len, List.length_cons, h2]

lemma len_remove_le (p : ConnectionsPool) (peer : SocketAddr) :
    (p.remove peer).len ≤ p.len :=
  List.length_filter_le _ _

lemma get_insert_self (p : ConnectionsPool) (peer : SocketAddr) (c : Chan) :
    (p.insert peer c).get peer = some c := by
  simp [insert, get, List.find?]

lemma get_remove_self (p : ConnectionsPool) (peer : SocketAddr) :
    (p.remove peer).get peer = none := by
  have hfind : (p.remove peer).inner.find? (fun e => e.1 = peer) = none := by
    rw [List.find?_eq_none]
    intro e he
    have := (List.mem_filter.mp he).2
    simpa using this
  simp only [get, hfind, Option.map_none']

lemma remove_of_get_none {p : ConnectionsPool} {peer : SocketAddr}
    (h : p.get peer = none) : p.remove peer = p := by
  have h2 := filter_ne_of_get_none h
  simp only [remove, h2]

lemma remove_remove (p : ConnectionsPool) (peer : SocketAddr) :
    (p.remove peer).remove peer = p.remove peer :=
  remove_of_get_none (get_remove_self p peer)

end ConnectionsPool

/-!
## Helper lemmas about the step functions
-/

lemma outboundTeardown_fst (pool : ConnectionsPool) (peer : SocketAddr)
    (res : Except String Unit) :
    (outboundTeardown pool peer res).1 = pool.remove peer := by
  cases res <;> rfl

lemma outboundTeardown_events (pool : ConnectionsPool) (peer : SocketAddr)
    (res : Except String Unit) :
    (outboundTeardown pool peer res).2.1 = [.PeerDisconnected peer] := by
  cases res <;> rfl

lemma handleSendMessage_pool_len (cfg : NetworkConfiguration)
    (pool : ConnectionsPool) (peer : SocketAddr) (msg : RawMessage)
    (h : pool.len ≤ cfg.max_outgoing_connections) :
    (handleSendMessage cfg pool peer msg).pool.len ≤
      cfg.max_outgoing_connections := by
  cases hget : pool.get peer with
  | some c => simp only [handleSendMessage, hget]; exact h
  | none =>
    by_cases hlim : pool.len ≥ cfg.max_outgoing_connections
    · simp only [handleSendMessage, hget, if_pos hlim]; exact h
    · simp only [handleSendMessage, hget, if_neg hlim]
      rw [ConnectionsPool.len_insert_of_get_none _ hget]
      omega

lemma acceptCheck_final_le {limit census : Nat} (h : census ≤ limit) :
    (acceptCheck limit census).final ≤ limit := by
  unfold acceptCheck
  dsimp only
  split <;> dsimp only <;> omega

lemma relayEvents_shape (addr : SocketAddr) :
    ∀ (l : List StreamItem) (e : NetworkEvent), e ∈ relayEvents addr l →
      ∃ r, e = NetworkEvent.MessageReceived addr r := by
  intro l
  induction l with
  | nil => intro e he; cases he
  | cons hd tl ih =>
    cases hd with
    | ioError => intro e he; cases he
    | item raw =>
      intro e he
      rcases List.mem_cons.mp he with h1 | h2
      · exact ⟨raw, h1⟩
      · exact ih e h2

lemma inboundEvents_no_disconnect (addr : SocketAddr)
    (stream : List StreamItem) (e : NetworkEvent)
    (he : e ∈ inboundEvents addr stream) :
    ∀ p, e ≠ NetworkEvent.PeerDisconnected p := by
  cases stream with
  | nil => cases he
  | cons hd tl =>
    cases hd with
    | ioError => cases he
    | item raw =>
      intro p
      simp only [inboundEvents] at he
      cases hres : Any.from_raw raw with
      | error msg => rw [hres] at he; cases he
      | ok a =>
        cases a with
        | other n => rw [hres] at he; cases he
        | connect c =>
          rw [hres] at he
          rcases List.mem_cons.mp he with h1 | h2
          · rw [h1]; intro hcontra; cases hcontra
          · rcases relayEvents_shape addr tl e h2 with ⟨r, rfl⟩
            intro hcontra; cases hcontra

lemma tagInbound_mem {l : List NetworkEvent} {te : TracedEvent}
    (h : te ∈ tagInbound l) : te.2 ∈ l := by
  cases l with
  | nil => cases h
  | cons e rest =>
    rcases List.mem_cons.mp h with h1 | h2
    · rw [h1]; exact List.mem_cons_self _ _
    · rcases List.mem_map.mp h2 with ⟨r, hr, rfl⟩
      exact List.mem_cons_of_mem _ hr

/-!
## Reachability invariants
-/

/-- The outgoing pool never holds more entries than the configured limit. -/
lemma pool_len_invariant {cfg : NetworkConfiguration} {s : NetState}
    (hs : Reachable cfg s) : s.pool.len ≤ cfg.max_outgoing_connections := by
  induction hs with
  | init => exact Nat.zero_le _
  | @step s s' hr hstep ih =>
    cases hstep with
    | sendMessage peer msg =>
      exact handleSendMessage_pool_len cfg s.pool peer msg ih
    | disconnect peer =>
      exact le_trans (ConnectionsPool.len_remove_le s.pool peer) ih
    | outboundEnd peer retryResult nodelayOk keepaliveOk pump hlive =>
      dsimp only
      rw [outboundTeardown_fst]
      exact le_trans (ConnectionsPool.len_remove_le s.pool peer) ih
    | accept addr stream =>
      dsimp only
      split <;> exact ih
    | inboundEnd hlive => exact ih

/-- The inbound census never sustains above the configured limit. -/
lemma census_invariant {cfg : NetworkConfiguration} {s : NetState}
    (hs : Reachable cfg s) : s.census ≤ cfg.max_incoming_connections := by
  induction hs with
  | init => exact Nat.zero_le _
  | @step s s' hr hstep ih =>
    cases hstep with
    | sendMessage peer msg => exact ih
    | disconnect peer => exact ih
    | outboundEnd peer retryResult nodelayOk keepaliveOk pump hlive =>
      exact ih
    | accept addr stream =>
      dsimp only
      split <;> exact acceptCheck_final_le ih
    | inboundEnd hlive =>
      exact le_trans (Nat.sub_le _ _) ih

/-- Every `PeerDisconnected` in the trace was emitted from one of the three
outbound-side sites. -/
lemma trace_origin_invariant {cfg : NetworkConfiguration} {s : NetState}
    (hs : Reachable cfg s) :
    ∀ te ∈ s.trace, ∀ p, te.2 = NetworkEvent.PeerDisconnected p →
      te.1 = Origin.outAdmission ∨ te.1 = Origin.outTeardown ∨
        te.1 = Origin.disconnectReq := by
  induction hs with
  | init => intro te hte; cases hte
  | @step s s' hr hstep ih =>
    cases hstep with
    | sendMessage peer msg =>
      dsimp only
      intro te hte p hp
      rcases List.mem_append.mp hte with h1 | h2
      · exact ih te h1 p hp
      · rcases List.mem_map.mp h2 with ⟨e, _, rfl⟩
        exact Or.inl rfl
    | disconnect peer =>
      intro te hte p hp
      rcases List.mem_append.mp hte with h1 | h2
      · exact ih te h1 p hp
      · rcases List.mem_map.mp h2 with ⟨e, _, rfl⟩
        exact Or.inr (Or.inr rfl)
    | outboundEnd peer retryResult nodelayOk keepaliveOk pump hlive =>
      dsimp only
      intro te hte p hp
      rcases List.mem_append.mp hte with h1 | h2
      · exact ih te h1 p hp
      · rcases List.mem_map.mp h2 with ⟨e, _, rfl⟩
        exact Or.inr (Or.inl rfl)
    | accept addr stream =>
      dsimp only
      split
      · intro te hte p hp
        rcases List.mem_append.mp hte with h1 | h2
        · exact ih te h1 p hp
        · exact absurd hp (inboundEvents_no_disconnect addr stream te.2
            (tagInbound_mem h2) p)
      · exact ih
    | inboundEnd hlive => exact ih

/-!
## Helper lemmas about the retry loop
-/

lemma retryRun_success (dial : Nat → Bool) :
    ∀ (N : Nat) (strategy : List Nat) (k : Nat), N ≤ strategy.length →
      (∀ j, j < N → dial (k + j) = false) → dial (k + N) = true →
      retryRun dial strategy k = .success (k + N) (strategy.take N) := by
  intro N
  induction N with
  | zero =>
    intro strategy k _ _ hsucc
    rw [Nat.add_zero] at hsucc
    unfold retryRun
    rw [if_pos hsucc]
    simp
  | succ n ih =>
    intro strategy k hlen hfail hsucc
    cases strategy with
    | nil => simp at hlen
    | cons d rest =>
      have h0 : dial k = false := hfail 0 (Nat.succ_pos n)
      have hrec : retryRun dial rest (k + 1) =
          .success (k + 1 + n) (rest.take n) := by
        refine ih rest (k + 1) (Nat.lt_succ_iff.mp (Nat.lt_of_lt_of_le
          (Nat.lt_succ_self _) (by simpa using hlen))) ?_ ?_
        · intro j hj
          have := hfail (j + 1) (Nat.succ_lt_succ hj)
          simpa [Nat.add_comm, Nat.add_left_comm, Nat.add_assoc] using this
        · have : k + 1 + n = k + (n + 1) := by omega
          rw [this]
          exact hsucc
      unfold retryRun
      rw [if_neg (by simp [h0])]
      dsimp only
      rw [hrec]
      have : k + 1 + n = k + (n + 1) := by omega
      rw [this, List.take_succ_cons]

lemma retryRun_exhausted (dial : Nat → Bool) (h : ∀ k, dial k = false) :
    ∀ (strategy : List Nat) (k : Nat),
      retryRun dial strategy k = .exhausted strategy := by
  intro strategy
  induction strategy with
  | nil =>
    intro k
    unfold retryRun
    rw [if_neg (by simp [h k])]
  | cons d rest ih =>
    intro k
    unfold retryRun
    rw [if_neg (by simp [h k])]
    dsimp only
    rw [ih (k + 1)]

lemma retryStrategy_length (jitterF : Nat → Nat → Nat) (timeout max_tries : Nat) :
    (retryStrategy jitterF timeout max_tries).length = max_tries := by
  simp [retryStrategy]

lemma retryStrategy_bounded {jitterF : Nat → Nat → Nat}
    (hj : ∀ i t, jitterF i t ≤ t) (timeout max_tries : Nat) :
    ∀ d ∈ retryStrategy jitterF timeout max_tries, d ≤ timeout := by
  intro d hd
  rcases List.mem_map.mp hd with ⟨i, _, rfl⟩
  exact hj i timeout

/-- The state of the network context after a successful
`SendMessage(0, _)` dial registration from startup under the default
configuration: peer `0` has a registered channel and a live connection
future. -/
def postDialState : NetState :=
  { pool := ConnectionsPool.new.insert 0 (Chan.new 10), dials := [0],
    census := 0, trace := [] }

lemma postDialState_reachable :
    Reachable NetworkConfiguration.default postDialState :=
  Reachable.step Reachable.init
    (Step.sendMessage initState 0 (RawMessage.otherRaw 0))

/-!
## The claims
-/

/-- C1: For every sequence of network requests, the connection registry's
live-entry count never exceeds `max_outgoing_connections`; when a
`SendMessage` targets a peer with no registry entry while the count is
already at or above `max_outgoing_connections`, the request emits
`PeerDisconnected(peer)` and leaves the registry unchanged (no entry is
created for that peer). -/
theorem C1_outgoing_registry_limit (cfg : NetworkConfiguration)
    (s : NetState) (hs : Reachable cfg s) :
    s.pool.len ≤ cfg.max_outgoing_connections ∧
    ∀ peer msg, s.pool.get peer = none →
      cfg.max_outgoing_connections ≤ s.pool.len →
      handleSendMessage cfg s.pool peer msg =
        { pool := s.pool, events := [NetworkEvent.PeerDisconnected peer],
          dialSpawned := none, push := none } := by
  refine ⟨pool_len_invariant hs, ?_⟩
  intro peer msg hget hlim
  simp only [handleSendMessage, hget, if_pos hlim]

theorem C1_outgoing_registry_limit_witness :
    handleSendMessage
        { NetworkConfiguration.default with max_outgoing_connections := 0 }
        initState.pool 3 (RawMessage.otherRaw 0) =
      { pool := initState.pool,
        events := [NetworkEvent.PeerDisconnected 3],
        dialSpawned := none, push := none } :=
  (C1_outgoing_registry_limit
      { NetworkConfiguration.default with max_outgoing_connections := 0 }
      initState Reachable.init).2 3 (RawMessage.otherRaw 0) rfl (Nat.zero_le _)

/-- C2: For every outbound connection, when its pump terminates for any
reason (either half finishing first, a socket error, a socket-configuration
error, or exhaustion of dial retries), the peer's entry is removed from the
registry and exactly one `PeerDisconnected(peer)` event is emitted for that
connection's lifetime, and the failure is not propagated to the caller of
`SendMessage` (the spawned future resolves without error for every input). -/
theorem C2_outbound_teardown_total (pool : ConnectionsPool)
    (peer : SocketAddr) (retryResult : Except String Unit)
    (nodelayOk keepaliveOk : Bool) (pump : PumpEnd) :
    outboundTeardown pool peer
        (connectAndPump retryResult nodelayOk keepaliveOk pump) =
      (pool.remove peer, [NetworkEvent.PeerDisconnected peer],
        Except.ok ()) ∧
    (pool.remove peer).get peer = none := by
  constructor
  · cases connectAndPump retryResult nodelayOk keepaliveOk pump <;> rfl
  · exact ConnectionsPool.get_remove_self pool peer

/-- C3: For every accepted inbound connection, if the first framed message
is not the handshake (`Connect`) variant — it decodes to another variant,
fails to decode, or the stream closes before any message — then no
`NetworkEvent` is ever emitted for that socket; `PeerConnected` is emitted
only after the first frame decodes to the handshake variant. -/
theorem C3_inbound_handshake_gate (addr : SocketAddr)
    (stream : List StreamItem) :
    ((stream = [] ∨ (∃ rest, stream = StreamItem.ioError :: rest) ∨
      (∃ raw rest, stream = StreamItem.item raw :: rest ∧
        ∀ c, Any.from_raw raw ≠ Except.ok (Any.connect c))) →
      inboundEvents addr stream = []) ∧
    (∀ c, NetworkEvent.PeerConnected addr c ∈ inboundEvents addr stream →
      ∃ raw rest, stream = StreamItem.item raw :: rest ∧
        Any.from_raw raw = Except.ok (Any.connect c)) := by
  constructor
  · intro hbad
    rcases hbad with rfl | ⟨rest, rfl⟩ | ⟨raw, rest, rfl, hnc⟩
    · rfl
    · rfl
    · simp only [inboundEvents]
      cases hres : Any.from_raw raw with
      | error e => rfl
      | ok a =>
        cases a with
        | connect c => exact absurd hres (hnc c)
        | other n => rfl
  · intro c hc
    cases stream with
    | nil => cases hc
    | cons hd tl =>
      cases hd with
      | ioError => cases hc
      | item raw =>
        simp only [inboundEvents] at hc
        cases hres : Any.from_raw raw with
        | error e => rw [hres] at hc; cases hc
        | ok a =>
          cases a with
          | other n => rw [hres] at hc; cases hc
          | connect c' =>
            rw [hres] at hc
            rcases List.mem_cons.mp hc with h1 | h2
            · cases h1
              exact ⟨raw, tl, rfl, hres⟩
            · rcases relayEvents_shape addr tl _ h2 with ⟨r, hr⟩
              cases hr

theorem C3_inbound_handshake_gate_witness :
    inboundEvents 9 [StreamItem.item (RawMessage.otherRaw 1)] = [] :=
  (C3_inbound_handshake_gate 9 [StreamItem.item (RawMessage.otherRaw 1)]).1
    (Or.inr (Or.inr ⟨RawMessage.otherRaw 1, [], rfl,
      fun c h => by simp [Any.from_raw] at h⟩))

/-- C4: For every sequence of inbound accepts and connection terminations,
the live-inbound census is incremented before the limit test (so it may
momentarily reach `max_incoming_connections + 1` during a check), a
connection whose post-increment count exceeds the limit is rejected and
releases its increment immediately, every accepted connection's increment
is released (one unit per task end, on any exit path), and the census never
sustains above `max_incoming_connections`. -/
theorem C4_inbound_census (cfg : NetworkConfiguration) (s : NetState)
    (hs : Reachable cfg s) :
    (acceptCheck cfg.max_incoming_connections s.census).peak =
      s.census + 1 ∧
    (acceptCheck cfg.max_incoming_connections s.census).peak ≤
      cfg.max_incoming_connections + 1 ∧
    ((acceptCheck cfg.max_incoming_connections s.census).accepted = false →
      (acceptCheck cfg.max_incoming_connections s.census).final =
        s.census) ∧
    ((acceptCheck cfg.max_incoming_connections s.census).accepted = true →
      (acceptCheck cfg.max_incoming_connections s.census).final =
        s.census + 1) ∧
    (0 < s.census →
      Step cfg s
        { pool := s.pool, dials := s.dials, census := s.census - 1,
          trace := s.trace }) ∧
    s.census ≤ cfg.max_incoming_connections := by
  have hinv := census_invariant hs
  refine ⟨?_, ?_, ?_, ?_, fun h => Step.inboundEnd s h, hinv⟩
  · unfold acceptCheck; dsimp only; split <;> rfl
  · unfold acceptCheck; dsimp only; split <;> dsimp only <;> omega
  · unfold acceptCheck; dsimp only; split
    · intro _; dsimp only; omega
    · intro hcontra; cases hcontra
  · unfold acceptCheck; dsimp only; split
    · intro hcontra; cases hcontra
    · intro _; rfl

theorem C4_inbound_census_witness :
    (acceptCheck
        NetworkConfiguration.default.max_incoming_connections
        initState.census).peak = initState.census + 1 ∧
    initState.census ≤
      NetworkConfiguration.default.max_incoming_connections :=
  ⟨(C4_inbound_census NetworkConfiguration.default initState
      Reachable.init).1,
    (C4_inbound_census NetworkConfiguration.default initState
      Reachable.init).2.2.2.2.2⟩

/-- C5: For every peer P with no registry entry, processing
`DisconnectWithPeer(P)` leaves the registry unchanged (removal of an absent
key is a no-op) and still emits `PeerDisconnected(P)` exactly once; when an
entry for P exists, the request removes it and emits `PeerDisconnected(P)`. -/
theorem C5_disconnect_idempotent (pool : ConnectionsPool)
    (peer : SocketAddr) :
    handleDisconnect pool peer =
      (pool.remove peer, [NetworkEvent.PeerDisconnected peer]) ∧
    (pool.get peer = none →
      handleDisconnect pool peer =
        (pool, [NetworkEvent.PeerDisconnected peer])) ∧
    (pool.remove peer).get peer = none := by
  refine ⟨rfl, ?_, ConnectionsPool.get_remove_self pool peer⟩
  intro h
  simp only [handleDisconnect, ConnectionsPool.remove_of_get_none h]

theorem C5_disconnect_idempotent_witness :
    handleDisconnect ConnectionsPool.new 7 =
      (ConnectionsPool.new, [NetworkEvent.PeerDisconnected 7]) :=
  (C5_disconnect_idempotent ConnectionsPool.new 7).2.1 rfl

/-- C6: For every outbound dial, on failure the connection is retried up to
`tcp_connect_max_retries` times, each retry delay derived from the fixed
base interval `tcp_connect_retry_timeout` perturbed by jitter bounded by
the base interval; a dial that fails N times then succeeds yields a
connection after N jittered delays (each in `[0, timeout]`), and exhausting
the retry budget is terminal for that attempt. -/
theorem C6_retry_policy (jitterF : Nat → Nat → Nat)
    (timeout max_tries : Nat) (hj : ∀ i t, jitterF i t ≤ t) :
    (∀ (N : Nat) (dial : Nat → Bool), N ≤ max_tries →
      (∀ k, k < N → dial k = false) → dial N = true →
      retryRun dial (retryStrategy jitterF timeout max_tries) 0 =
        RetryResult.success N
          ((retryStrategy jitterF timeout max_tries).take N) ∧
      ((retryStrategy jitterF timeout max_tries).take N).length = N ∧
      ∀ d ∈ (retryStrategy jitterF timeout max_tries).take N,
        d ≤ timeout) ∧
    (∀ dial : Nat → Bool, (∀ k, dial k = false) →
      retryRun dial (retryStrategy jitterF timeout max_tries) 0 =
        RetryResult.exhausted (retryStrategy jitterF timeout max_tries)) ∧
    (retryStrategy jitterF timeout max_tries).length = max_tries := by
  refine ⟨?_, fun dial h => retryRun_exhausted dial h _ 0,
    retryStrategy_length _ _ _⟩
  intro N dial hN hfail hsucc
  have hlen : N ≤ (retryStrategy jitterF timeout max_tries).length := by
    rw [retryStrategy_length]; exact hN
  have hfail2 : ∀ j, j < N → dial (0 + j) = false := by
    intro j hj2; rw [Nat.zero_add]; exact hfail j hj2
  have hsucc2 : dial (0 + N) = true := by rw [Nat.zero_add]; exact hsucc
  have hrun := retryRun_success dial N _ 0 hlen hfail2 hsucc2
  rw [Nat.zero_add] at hrun
  refine ⟨hrun, ?_, ?_⟩
  · rw [List.length_take, retryStrategy_length]; omega
  · intro d hd
    exact retryStrategy_bounded hj timeout max_tries d
      (List.take_subset _ _ hd)

theorem C6_retry_policy_witness :
    retryRun (fun k => decide (2 ≤ k))
        (retryStrategy (fun _ t => t / 2) 15000 10) 0 =
      RetryResult.success 2 [7500, 7500] ∧
    retryRun (fun _ => false)
        (retryStrategy (fun _ t => t / 2) 15000 10) 0 =
      RetryResult.exhausted (retryStrategy (fun _ t => t / 2) 15000 10) := by
  constructor
  · have h := ((C6_retry_policy (fun _ t => t / 2) 15000 10
      (fun _ t => Nat.div_le_self t 2)).1 2 (fun k => decide (2 ≤ k))
      (by decide) (by decide) (by decide)).1
    rw [h]
    decide
  · exact (C6_retry_policy (fun _ t => t / 2) 15000 10
      (fun _ t => Nat.div_le_self t 2)).2.1 (fun _ => false) (fun _ => rfl)

/-- C7: For every `SendMessage(peer, payload)` where the registry already
holds an entry for the peer, no new connection manager is started and no
admission check is performed (the result does not depend on the configured
limit): the payload is pushed onto that peer's existing bounded channel,
which suspends rather than drops when full; a new dial (with its admission
check and registry insertion before the transport connect) occurs only when
no entry exists, with a fresh channel of capacity 10. -/
theorem C7_send_existing_bypass (cfg cfg' : NetworkConfiguration)
    (pool : ConnectionsPool) (peer : SocketAddr) (msg : RawMessage) :
    (∀ ch, pool.get peer = some ch →
      handleSendMessage cfg pool peer msg =
        { pool := pool, events := [], dialSpawned := none,
          push := some (ch, msg) } ∧
      handleSendMessage cfg pool peer msg =
        handleSendMessage cfg' pool peer msg) ∧
    (∀ c : Chan, c.cap ≤ c.buf.length →
      c.send msg = SendOutcome.suspended c) ∧
    (∀ c : Chan, c.buf.length < c.cap →
      c.send msg = SendOutcome.enqueued ⟨c.cap, c.buf ++ [msg]⟩) ∧
    (∀ p, (handleSendMessage cfg pool peer msg).dialSpawned = some p →
      p = peer ∧ pool.get peer = none ∧
      pool.len < cfg.max_outgoing_connections ∧
      (handleSendMessage cfg pool peer msg).pool.get peer =
        some (Chan.new 10) ∧
      (Chan.new 10).cap = 10 ∧ (Chan.new 10).buf = []) := by
  refine ⟨?_, ?_, ?_, ?_⟩
  · intro ch hch
    constructor <;> simp only [handleSendMessage, hch]
  · intro c hc
    unfold Chan.send
    rw [if_neg (by omega)]
  · intro c hc
    unfold Chan.send
    rw [if_pos hc]
  · intro p hp
    cases hget : pool.get peer with
    | some ch => simp only [handleSendMessage, hget] at hp; cases hp
    | none =>
      by_cases hlim : pool.len ≥ cfg.max_outgoing_connections
      · simp only [handleSendMessage, hget, if_pos hlim] at hp; cases hp
      · simp only [handleSendMessage, hget, if_neg hlim] at hp
        cases hp
        refine ⟨rfl, rfl, by omega, ?_, rfl, rfl⟩
        simp only [handleSendMessage, hget, if_neg hlim]
        exact ConnectionsPool.get_insert_self pool peer (Chan.new 10)

theorem C7_send_existing_bypass_witness :
    handleSendMessage NetworkConfiguration.default
        (ConnectionsPool.new.insert 5 (Chan.new 10)) 5
        (RawMessage.otherRaw 2) =
      { pool := ConnectionsPool.new.insert 5 (Chan.new 10), events := [],
        dialSpawned := none,
        push := some (Chan.new 10, RawMessage.otherRaw 2) } :=
  ((C7_send_existing_bypass NetworkConfiguration.default
      NetworkConfiguration.default
      (ConnectionsPool.new.insert 5 (Chan.new 10)) 5
      (RawMessage.otherRaw 2)).1 (Chan.new 10)
    (ConnectionsPool.get_insert_self ConnectionsPool.new 5 (Chan.new 10))).1

/-- C8: The default `NetworkConfiguration` has
`max_incoming_connections = 128`, `max_outgoing_connections = 128`,
`tcp_nodelay = false`, `tcp_keep_alive` disabled (absent),
`tcp_connect_retry_timeout = 15000` milliseconds, and
`tcp_connect_max_retries = 10`. -/
theorem C8_default_configuration :
    NetworkConfiguration.default.max_incoming_connections = 128 ∧
    NetworkConfiguration.default.max_outgoing_connections = 128 ∧
    NetworkConfiguration.default.tcp_nodelay = false ∧
    NetworkConfiguration.default.tcp_keep_alive = none ∧
    NetworkConfiguration.default.tcp_connect_retry_timeout = 15000 ∧
    NetworkConfiguration.default.tcp_connect_max_retries = 10 :=
  ⟨rfl, rfl, rfl, rfl, rfl, rfl⟩

/-- C9: For every inbound connection and every exit path of its relay task,
no `PeerDisconnected` event is ever emitted on the inbound path;
`PeerDisconnected` events originate only from the outbound side (outbound
teardown, outbound admission rejection, and `DisconnectWithPeer`
handling). -/
theorem C9_disconnect_origin (cfg : NetworkConfiguration) (s : NetState)
    (hs : Reachable cfg s) :
    (∀ te ∈ s.trace,
      (te.1 = Origin.inHandshake ∨ te.1 = Origin.inRelay) →
      ∀ p, te.2 ≠ NetworkEvent.PeerDisconnected p) ∧
    (∀ te ∈ s.trace, ∀ p, te.2 = NetworkEvent.PeerDisconnected p →
      te.1 = Origin.outAdmission ∨ te.1 = Origin.outTeardown ∨
        te.1 = Origin.disconnectReq) ∧
    (∀ (addr : SocketAddr) (stream : List StreamItem) e,
      e ∈ inboundEvents addr stream →
      ∀ p, e ≠ NetworkEvent.PeerDisconnected p) := by
  refine ⟨?_, trace_origin_invariant hs,
    fun addr stream e he => inboundEvents_no_disconnect addr stream e he⟩
  intro te hte hin p hpd
  rcases trace_origin_invariant hs te hte p hpd with h | h | h <;>
    rcases hin with h2 | h2 <;> rw [h] at h2 <;> cases h2

theorem C9_disconnect_origin_witness :
    NetworkEvent.MessageReceived 4 (RawMessage.otherRaw 1) ≠
      NetworkEvent.PeerDisconnected 4 :=
  (C9_disconnect_origin NetworkConfiguration.default initState
      Reachable.init).2.2 4
    [StreamItem.item (RawMessage.connectRaw 0),
      StreamItem.item (RawMessage.otherRaw 1)]
    (NetworkEvent.MessageReceived 4 (RawMessage.otherRaw 1)) (by decide) 4

/-- C10: For a peer P with a live outbound connection whose only remaining
channel senders are the registry entry, processing `DisconnectWithPeer(P)`
causes `PeerDisconnected(P)` to be emitted twice in total: once immediately
by the dispatcher, and once more by the connection's teardown after removal
of the registry entry drops the last sender, which closes the outbound
channel, completes the writer half (the pump ends with the writer first),
and triggers the teardown path, whose own registry removal is then a
no-op. -/
theorem C10_disconnect_double_event (cfg : NetworkConfiguration)
    (s : NetState) (peer : SocketAddr) (_hs : Reachable cfg s)
    (hdial : peer ∈ s.dials) (_hconn : (s.pool.get peer).isSome) :
    ∃ s1 s2 : NetState, Step cfg s s1 ∧ Step cfg s1 s2 ∧
      s1.pool.get peer = none ∧
      s2.pool = s1.pool ∧
      s2.trace = s.trace ++
        [(Origin.disconnectReq, NetworkEvent.PeerDisconnected peer),
          (Origin.outTeardown, NetworkEvent.PeerDisconnected peer)] := by
  refine ⟨_, _, Step.disconnect s peer,
    Step.outboundEnd _ peer (Except.ok ()) true true PumpEnd.writerFirst
      hdial, ?_, ?_, ?_⟩
  · exact ConnectionsPool.get_remove_self s.pool peer
  · dsimp only
    rw [outboundTeardown_fst]
    exact ConnectionsPool.remove_remove s.pool peer
  · dsimp only
    rw [outboundTeardown_events]
    simp [handleDisconnect]

theorem C10_disconnect_double_event_witness :
    ∃ s1 s2 : NetState,
      Step NetworkConfiguration.default postDialState s1 ∧
      Step NetworkConfiguration.default s1 s2 ∧
      s1.pool.get 0 = none ∧ s2.pool = s1.pool ∧
      s2.trace = postDialState.trace ++
        [(Origin.disconnectReq, NetworkEvent.PeerDisconnected 0),
          (Origin.outTeardown, NetworkEvent.PeerDisconnected 0)] :=
  C10_disconnect_double_event NetworkConfiguration.default postDialState 0
    postDialState_reachable (by decide) (by decide)

end Network
